import Mathlib

/-!
Verification of the chunked-transcription core of the mp3ToTxt repository.

The embedding models the two elements carrying all the logic of the
repository (file `mp3_to_text.py`):

* `TaskController` (lines 22-67): a pair of flags `paused` /
  `stop_requested` mutated under a mutex.  Each method is embedded as a
  pure state transformer on `TCState` (the mutex serialises the accesses,
  so its only observable content is the flag pair).  The busy-poll loop of
  `wait_if_paused` is embedded separately as `wait_if_paused_polls` over
  the sequence of controller states observed at successive polls.

* `transcribe_large_audio_baidu` (lines 210-303): the chunked loop.  Its
  interaction with the outside world — the controller's stop flag, the
  recognition service, the progress callback — is captured by `LoopEnv`
  and the loop itself by the fuel-structural function `chunkLoopAux`,
  mirroring `for i in range(chunks_number)` line by line.

Timeline convention for stop requests: each chunk `i` reads the stop flag
twice, at abstract positions `2*i` (the check before `wait_if_paused`,
line 240) and `2*i + 1` (the re-check after it, line 248).  A run whose
`stopTime` is `some s` models a `stop()` call that happens before position
`s`, hence is visible to every check at a position `≥ s`.  All work after
the final re-check — recognising the last chunk, the final progress
report, the join — occupies positions `≥ 2*n`, so `stopTime = some (2*n)`
models a `stop()` issued while the last chunk is being recognised, before
the function returns.
-/

namespace Mp3ToText

/-- The flag pair guarded by `TaskController._lock`
(`mp3_to_text.py` lines 23-26). -/
structure TCState where
  paused : Bool
  stop_requested : Bool
  deriving DecidableEq, Repr

/-- The state built by `TaskController.__init__` (lines 23-26). -/
def TCState.init : TCState := ⟨false, false⟩

/-- `TaskController.pause` (lines 28-31): sets `_paused` under the lock. -/
def pause (s : TCState) : TCState := { s with paused := true }

/-- `TaskController.resume` (lines 33-36): clears `_paused` under the lock. -/
def resume (s : TCState) : TCState := { s with paused := false }

/-- `TaskController.stop` (lines 38-41): sets `_stop_requested`. -/
def stop (s : TCState) : TCState := { s with stop_requested := true }

/-- `TaskController.is_paused` (lines 43-46): returns `_paused`; the state
after the locked read is returned alongside to state frame properties. -/
def is_paused (s : TCState) : Bool × TCState := (s.paused, s)

/-- `TaskController.is_stop_requested` (lines 48-51): returns
`_stop_requested`, again paired with the post-state. -/
def is_stop_requested (s : TCState) : Bool × TCState := (s.stop_requested, s)

/-- `TaskController.reset` (lines 53-57): clears both flags. -/
def reset (_s : TCState) : TCState := ⟨false, false⟩

/-- The exit condition of the polling loop in `wait_if_paused`
(lines 61-66): the loop returns when `not self._paused` (line 63) or
`self._stop_requested` (line 65) holds. -/
def wait_exit (s : TCState) : Bool := !s.paused || s.stop_requested

/-- The effect of `TaskController.wait_if_paused` on the flags: its body
(lines 59-67) contains no assignment, so it is the identity. -/
def wait_if_paused_writes (s : TCState) : TCState := s

/-- The polling behaviour of `wait_if_paused` (lines 59-67): `f k` is the
controller state read under the lock at the `k`-th iteration of the
`while True` loop; the method returns at the first poll satisfying
`wait_exit`, having slept `0.1` s between polls.  The hypothesis `h` says
the controlling thread eventually resumes or stops; without it the code
polls forever, which is the claimed blocking behaviour, not an error. -/
def wait_if_paused_polls (f : Nat → TCState) (h : ∃ k, wait_exit (f k) = true) :
    Nat := Nat.find h

/-- A controlling thread that never pauses: every poll sees cleared flags. -/
def constUnpaused : Nat → TCState := fun _ => ⟨false, false⟩

/-- The run against `constUnpaused` satisfies the exit condition at once. -/
def constUnpausedExit : ∃ k, wait_exit (constUnpaused k) = true := ⟨0, rfl⟩

/-- A controlling thread that pauses for three polls, then resumes. -/
def pausedThenResumed : Nat → TCState := fun k => ⟨decide (k < 3), false⟩

/-- The run against `pausedThenResumed` eventually satisfies the exit
condition. -/
def pausedThenResumedExit : ∃ k, wait_exit (pausedThenResumed k) = true :=
  ⟨3, rfl⟩

end Mp3ToText

namespace Mp3ToText

/-- C3: `wait_if_paused` returns exactly at the first poll at which the
paused flag is off or the stop flag is on; every earlier poll saw
`paused = true` and `stop_requested = false` (and the loop kept polling);
when the disjunction already holds at the first poll the method returns
immediately.  The method body only reads the flags (`wait_if_paused_writes`
is the identity, see C9), and the embedding is a total function, matching
"never raises". -/
theorem C3_wait_if_paused_exit (f : Nat → TCState)
    (h : ∃ k, wait_exit (f k) = true) :
    wait_exit (f (wait_if_paused_polls f h)) = true ∧
    (∀ k, k < wait_if_paused_polls f h →
      (f k).paused = true ∧ (f k).stop_requested = false) ∧
    (wait_exit (f 0) = true → wait_if_paused_polls f h = 0) := by
  refine ⟨Nat.find_spec h, ?_, ?_⟩
  · intro k hk
    have hmin := Nat.find_min h hk
    have hfalse : wait_exit (f k) = false := by
      cases hx : wait_exit (f k) with
      | false => rfl
      | true => exact absurd hx hmin
    unfold wait_exit at hfalse
    constructor
    · cases hp : (f k).paused with
      | false => simp [hp] at hfalse
      | true => rfl
    · cases hs : (f k).stop_requested with
      | false => rfl
      | true => simp [hs] at hfalse
  · intro h0
    exact Nat.le_zero.mp (Nat.find_le h0)

/-- Witness for C3 on the concrete schedule `pausedThenResumed`. -/
theorem C3_wait_if_paused_exit_witness :
    wait_exit (pausedThenResumed
        (wait_if_paused_polls pausedThenResumed pausedThenResumedExit)) = true ∧
    (∀ k, k < wait_if_paused_polls pausedThenResumed pausedThenResumedExit →
      (pausedThenResumed k).paused = true ∧
      (pausedThenResumed k).stop_requested = false) ∧
    (wait_exit (pausedThenResumed 0) = true →
      wait_if_paused_polls pausedThenResumed pausedThenResumedExit = 0) :=
  C3_wait_if_paused_exit pausedThenResumed pausedThenResumedExit

/-- C6: once `stop_requested` is set, `pause`, `resume`, `stop`,
`is_paused`, `is_stop_requested` and `wait_if_paused` all leave it set;
only `reset` clears it, so the stopped state is terminal for the session. -/
theorem C6_stop_terminal (s : TCState) (h : s.stop_requested = true) :
    (pause s).stop_requested = true ∧
    (resume s).stop_requested = true ∧
    (stop s).stop_requested = true ∧
    ((is_paused s).2).stop_requested = true ∧
    ((is_stop_requested s).2).stop_requested = true ∧
    (wait_if_paused_writes s).stop_requested = true ∧
    (reset s).stop_requested = false := by
  simp [pause, resume, stop, is_paused, is_stop_requested,
    wait_if_paused_writes, reset, h]

/-- Witness for C6 at the stopped-and-paused state. -/
theorem C6_stop_terminal_witness :
    (pause ⟨true, true⟩).stop_requested = true ∧
    (resume ⟨true, true⟩).stop_requested = true ∧
    (stop ⟨true, true⟩).stop_requested = true ∧
    ((is_paused ⟨true, true⟩).2).stop_requested = true ∧
    ((is_stop_requested ⟨true, true⟩).2).stop_requested = true ∧
    (wait_if_paused_writes ⟨true, true⟩).stop_requested = true ∧
    (reset ⟨true, true⟩).stop_requested = false :=
  C6_stop_terminal ⟨true, true⟩ rfl

/-- C8: `reset` restores the initial state whatever the prior flags; in
particular after a `stop` the fresh state satisfies the `wait_if_paused`
exit condition at once and the stop checks read `false`, so a subsequent
run proceeds normally. -/
theorem C8_reset_clears (s : TCState) :
    reset s = TCState.init ∧
    (reset (stop s)).paused = false ∧
    (reset (stop s)).stop_requested = false ∧
    wait_exit (reset (stop s)) = true ∧
    (is_stop_requested (reset (stop s))).1 = false := by
  simp [reset, stop, TCState.init, wait_exit, is_stop_requested]

/-- C9: frame properties of the controller methods — `pause` and `resume`
leave `stop_requested` unchanged, `stop` leaves `paused` unchanged, and the
read-only methods (`is_paused`, `is_stop_requested`, `wait_if_paused`)
leave the whole state unchanged. -/
theorem C9_frame (s : TCState) :
    (pause s).stop_requested = s.stop_requested ∧
    (resume s).stop_requested = s.stop_requested ∧
    (stop s).paused = s.paused ∧
    (is_paused s).2 = s ∧
    (is_stop_requested s).2 = s ∧
    wait_if_paused_writes s = s := by
  simp [pause, resume, stop, is_paused, is_stop_requested,
    wait_if_paused_writes]

end Mp3ToText

namespace Mp3ToText

/-- The sentinel returned on a user stop, `"处理已被用户停止"`
(`mp3_to_text.py` lines 243, 250, 276-277). -/
def stopped_sentinel : String := "处理已被用户停止"

/-- The head of the error message built from a non-zero Baidu error code
(line 203), which line 280 tests with `startswith`. -/
def baidu_err_head : String := "百度语音识别服务错误"

/-- The message returned when the module-level API keys are empty
(line 145). -/
def missing_key_msg : String :=
  "错误: 未配置百度语音识别API密钥，请在脚本中配置APP_ID、API_KEY和SECRET_KEY"

/-- The head of the message returned when `client.asr` raises (line 208). -/
def baidu_exn_head : String := "百度语音识别服务异常: "

/-- Python's `str.startswith`, as used on line 280. -/
def startswith (s head : String) : Bool := head.data.isPrefixOf s.data

/-- The environment a run of `transcribe_large_audio_baidu` interacts
with: `recog i` is the string returned by the recursive
`transcribe_audio_baidu` call on chunk `i` (line 273), and `stopTime` is
the abstract position before which the controlling thread called `stop()`
(`none` when it never does); see the timeline convention in the file
header.  `pause`/`resume` interleavings are invisible here because
`wait_if_paused` neither writes the flags nor produces output (C3, C9). -/
structure LoopEnv where
  recog : Nat → String
  stopTime : Option Nat

/-- Value read by `is_stop_requested()` at abstract position `t`: the
`stop()` issued before position `stopTime = some s` is seen by every later
check. -/
def stopObserved (e : LoopEnv) (t : Nat) : Bool :=
  match e.stopTime with
  | none => false
  | some s => decide (s ≤ t)

/-- Observable outcome of a run of the chunked loop: the returned string,
the arguments of the successive `progress_callback` invocations
(lines 256-257 and 293-294), and the chunk indices that were exported and
submitted to recognition (lines 269-273). -/
structure LoopOut where
  result : String
  progress : List (Nat × Nat)
  processed : List Nat
  deriving DecidableEq, Repr

/-- The body of `for i in range(chunks_number)` (lines 238-299), with
`fuel = chunks_number - i` making the recursion structural.  Per
iteration, in source order: the stop check (lines 240-243), the
`wait_if_paused` call and the stop re-check (lines 246-250), the progress
report (lines 256-257), the recognition of the slice (lines 260-273), the
sentinel forwarding (lines 276-277), and the `startswith` filter deciding
whether the chunk joins `transcription` (lines 280-284).  After the loop:
the final progress report (lines 293-294) and the newline join
(line 297). -/
def chunkLoopAux (e : LoopEnv) (n : Nat) :
    Nat → Nat → List String → List (Nat × Nat) → List Nat → LoopOut
  | 0, _i, acc, prog, proc =>
      ⟨String.intercalate "\n" acc, prog ++ [(n, n)], proc⟩
  | fuel + 1, i, acc, prog, proc =>
      if stopObserved e (2 * i) then ⟨stopped_sentinel, prog, proc⟩
      else if stopObserved e (2 * i + 1) then ⟨stopped_sentinel, prog, proc⟩
      else
        let prog' := prog ++ [(i, n)]
        let r := e.recog i
        let proc' := proc ++ [i]
        if r = stopped_sentinel then ⟨r, prog', proc'⟩
        else
          let acc' := if startswith r baidu_err_head then acc else acc ++ [r]
          chunkLoopAux e n fuel (i + 1) acc' prog' proc'

/-- A full run of the loop of `transcribe_large_audio_baidu` over `n`
chunks (`n = chunks_number`), starting from the empty `transcription`
list (line 235). -/
def chunkLoopRun (e : LoopEnv) (n : Nat) : LoopOut :=
  chunkLoopAux e n n 0 [] [] []

/-- The chunk length in milliseconds, `chunk_length_ms = 60000`
(line 226). -/
def chunk_length_ms : Nat := 60000

/-- `chunks_number = len(audio) // chunk_length_ms + 1` (line 229);
`audioLen` is the audio duration in milliseconds, which is what `pydub`'s
`len` returns. -/
def chunksNumber (audioLen : Nat) : Nat := audioLen / chunk_length_ms + 1

/-- The slice `audio[i*chunk_length_ms:(i+1)*chunk_length_ms]` (line 260);
audio is modelled as the list of its millisecond frames, and Python
slicing clamps at the end of the sequence exactly as `drop`/`take` do. -/
def audioChunk {α : Type} (audio : List α) (i : Nat) : List α :=
  (audio.drop (i * chunk_length_ms)).take chunk_length_ms

/-- The dispatch cascade at the top of `transcribe_audio_baidu`: the
missing-key early return (lines 142-145, Python's falsiness of the empty
string), then the size test `file_size > 10 * 1024 * 1024` (line 161)
routing to `transcribe_large_audio_baidu` (line 164), else the single
`client.asr` request (lines 189-208). -/
inductive BaiduPath where
  | missingKey
  | chunked
  | singleRequest
  deriving DecidableEq, Repr

/-- The path taken by `transcribe_audio_baidu` as a function of the
configured keys and the audio file's byte size. -/
def baiduDispatch (appId apiKey secretKey : String) (fileSize : Nat) :
    BaiduPath :=
  if appId = "" ∨ apiKey = "" ∨ secretKey = "" then .missingKey
  else if fileSize > 10 * 1024 * 1024 then .chunked
  else .singleRequest

end Mp3ToText

namespace Mp3ToText

/-- With no stop request and no sentinel among the per-chunk results, the
loop runs to the end: the remaining `fuel` chunks starting at index `i`
are all recognised, the non-error results are appended to `acc`, the
progress list gains one entry per chunk plus the final `(n, n)`, and the
processed indices gain `i, i+1, …`. -/
theorem chunkLoopAux_no_stop (e : LoopEnv) (hstop : e.stopTime = none)
    (hsent : ∀ i, e.recog i ≠ stopped_sentinel) (n : Nat) :
    ∀ fuel i acc prog proc,
      chunkLoopAux e n fuel i acc prog proc =
        ⟨String.intercalate "\n" (acc ++
            ((List.range' i fuel).map e.recog).filter
              (fun r => !(startswith r baidu_err_head))),
         prog ++ (List.range' i fuel).map (fun j => (j, n)) ++ [(n, n)],
         proc ++ List.range' i fuel⟩ := by
  intro fuel
  induction fuel with
  | zero =>
    intro i acc prog proc
    simp [chunkLoopAux]
  | succ fuel ih =>
    intro i acc prog proc
    have hobs : ∀ t, stopObserved e t = false := by
      intro t
      simp [stopObserved, hstop]
    by_cases hr : startswith (e.recog i) baidu_err_head
    · simp only [chunkLoopAux, hobs, Bool.false_eq_true, if_false,
        if_neg (hsent i), hr, if_true]
      rw [ih]
      simp [List.range'_succ, List.filter_cons, hr, List.append_assoc]
    · simp only [chunkLoopAux, hobs, Bool.false_eq_true, if_false,
        if_neg (hsent i), hr, if_false]
      rw [ih]
      simp [List.range'_succ, List.filter_cons, hr, List.append_assoc]

/-- When a stop request becomes visible at position `s` and the checks up
to the current chunk have not yet seen it (`2 * i ≤ s`) but some remaining
check will (`s < 2 * (i + fuel)`), the loop returns the sentinel after
processing exactly the chunks `i, …, s / 2 - 1`. -/
theorem chunkLoopAux_stop (e : LoopEnv) (s : Nat) (hs : e.stopTime = some s)
    (hsent : ∀ i, e.recog i ≠ stopped_sentinel) (n : Nat) :
    ∀ fuel i acc prog proc, 2 * i ≤ s → s < 2 * (i + fuel) →
      chunkLoopAux e n fuel i acc prog proc =
        ⟨stopped_sentinel,
         prog ++ (List.range' i (s / 2 - i)).map (fun j => (j, n)),
         proc ++ List.range' i (s / 2 - i)⟩ := by
  intro fuel
  induction fuel with
  | zero =>
    intro i acc prog proc hlo hhi
    omega
  | succ fuel ih =>
    intro i acc prog proc hlo hhi
    by_cases h1 : s ≤ 2 * i
    · have hi : s / 2 - i = 0 := by omega
      have hobs : stopObserved e (2 * i) = true := by
        simp [stopObserved, hs, h1]
      simp [chunkLoopAux, hobs, hi]
    · by_cases h2 : s ≤ 2 * i + 1
      · have hi : s / 2 - i = 0 := by omega
        have hobs1 : stopObserved e (2 * i) = false := by
          simp [stopObserved, hs]
          omega
        have hobs2 : stopObserved e (2 * i + 1) = true := by
          simp [stopObserved, hs, h2]
        simp [chunkLoopAux, hobs1, hobs2, hi]
      · have hobs1 : stopObserved e (2 * i) = false := by
          simp [stopObserved, hs]
          omega
        have hobs2 : stopObserved e (2 * i + 1) = false := by
          simp [stopObserved, hs]
          omega
        have hsplit : s / 2 - i = (s / 2 - (i + 1)) + 1 := by omega
        simp only [chunkLoopAux, hobs1, hobs2, Bool.false_eq_true, if_false,
          if_neg (hsent i)]
        rw [ih (i + 1) _ _ _ (by omega) (by omega)]
        rw [hsplit, List.range'_succ]
        simp [List.append_assoc]

/-- Whatever the environment does — stop requests at arbitrary points,
arbitrary per-chunk results including the sentinel — the chunk indices the
loop submits to recognition extend `proc` by a contiguous block starting
at `i`, of length at most `fuel`. -/
theorem chunkLoopAux_processed_block (e : LoopEnv) (n : Nat) :
    ∀ fuel i acc prog proc, ∃ m, m ≤ fuel ∧
      (chunkLoopAux e n fuel i acc prog proc).processed =
        proc ++ List.range' i m := by
  intro fuel
  induction fuel with
  | zero =>
    intro i acc prog proc
    exact ⟨0, Nat.le_refl 0, by simp [chunkLoopAux]⟩
  | succ fuel ih =>
    intro i acc prog proc
    by_cases hobs1 : stopObserved e (2 * i) = true
    · exact ⟨0, Nat.zero_le _, by simp [chunkLoopAux, hobs1]⟩
    · by_cases hobs2 : stopObserved e (2 * i + 1) = true
      · refine ⟨0, Nat.zero_le _, ?_⟩
        simp only [Bool.not_eq_true] at hobs1
        simp [chunkLoopAux, hobs1, hobs2]
      · simp only [Bool.not_eq_true] at hobs1 hobs2
        by_cases hsen : e.recog i = stopped_sentinel
        · refine ⟨1, by omega, ?_⟩
          simp [chunkLoopAux, hobs1, hobs2, hsen]
        · obtain ⟨m, hm, hp⟩ := ih (i + 1)
            (if startswith (e.recog i) baidu_err_head then acc
              else acc ++ [e.recog i]) (prog ++ [(i, n)]) (proc ++ [i])
          refine ⟨m + 1, by omega, ?_⟩
          simp only [chunkLoopAux, hobs1, hobs2, Bool.false_eq_true, if_false,
            if_neg hsen]
          rw [hp, List.range'_succ]
          simp [List.append_assoc]

/-- The first `k` slices of width `chunk_length_ms`, concatenated in
order, are the first `k * chunk_length_ms` frames of the audio. -/
theorem flatten_audioChunks {α : Type} (l : List α) :
    ∀ k, ((List.range k).map (audioChunk l)).flatten =
      l.take (k * chunk_length_ms) := by
  intro k
  induction k with
  | zero => simp
  | succ k ih =>
    rw [List.range_succ, List.map_append, List.flatten_append, ih]
    simp only [List.map_cons, List.map_nil, List.flatten_cons,
      List.flatten_nil, List.append_nil]
    rw [audioChunk, ← List.take_add]
    rw [Nat.succ_mul]

end Mp3ToText

namespace Mp3ToText

/-- An environment in which every chunk is recognised successfully and no
stop is ever requested. -/
def envAllGood : LoopEnv := ⟨fun _ => "好", none⟩

/-- No per-chunk result of `envAllGood` is the stop sentinel. -/
theorem envAllGood_no_sentinel : ∀ i, envAllGood.recog i ≠ stopped_sentinel := by
  intro i
  rw [show envAllGood.recog i = "好" from rfl]
  decide

/-- An environment in which chunk 0 fails with the caught-exception
message of line 208 and chunk 1 with the missing-API-key message of
line 145, with no stop requested. -/
def envTwoFailures : LoopEnv :=
  ⟨fun i => if i = 0 then "百度语音识别服务异常: boom" else missing_key_msg, none⟩

/-- An environment in which every chunk succeeds and `stop()` arrives at
position 2, i.e. after both stop checks of chunk 0. -/
def envLateStop : LoopEnv := ⟨fun _ => "好", some 2⟩

/-- An environment in which every chunk succeeds and `stop()` arrives at
position 3, i.e. while chunk 1 sits in `wait_if_paused`, between its two
stop checks. -/
def envMidStop : LoopEnv := ⟨fun _ => "好", some 3⟩

/-- No per-chunk result of `envMidStop` is the stop sentinel. -/
theorem envMidStop_no_sentinel : ∀ i, envMidStop.recog i ≠ stopped_sentinel := by
  intro i
  rw [show envMidStop.recog i = "好" from rfl]
  decide

/-- C1, counterexample: the claim says every per-chunk recognition
failure — including failures reported via a caught exception or a
missing-API-key error — is omitted from the aggregate, so a run whose
two chunks fail those two ways should return the empty string.  The
filter on line 280 only discards strings starting with
`百度语音识别服务错误`, which neither message does, so the code returns
both failure messages joined by a newline. -/
theorem C1_exception_and_missing_key_not_omitted :
    (chunkLoopRun envTwoFailures 2).result =
      "百度语音识别服务异常: boom" ++ "\n" ++ missing_key_msg ∧
    (chunkLoopRun envTwoFailures 2).result ≠ "" ∧
    startswith "百度语音识别服务异常: boom" baidu_err_head = false ∧
    startswith missing_key_msg baidu_err_head = false := by decide

/-- C1, amended: for a run with no stop request, the returned text is the
newline-join, in original chunk order, of exactly the chunk results that
do not start with `百度语音识别服务错误` — so error-code failures are
omitted while the loop continues (and the result is empty when every
chunk fails that way), but exception-reported failures and the
missing-API-key message pass the filter and are included. -/
theorem C1_result_is_filtered_join (e : LoopEnv) (n : Nat)
    (hstop : e.stopTime = none)
    (hsent : ∀ i, e.recog i ≠ stopped_sentinel) :
    (chunkLoopRun e n).result =
      String.intercalate "\n"
        (((List.range n).map e.recog).filter
          (fun r => !(startswith r baidu_err_head))) := by
  have h := chunkLoopAux_no_stop e hstop hsent n n 0 [] [] []
  rw [chunkLoopRun, h]
  simp [List.range_eq_range']

/-- Witness for C1 on a concrete two-chunk run with all chunks
successful. -/
theorem C1_result_is_filtered_join_witness :
    (chunkLoopRun envAllGood 2).result =
      String.intercalate "\n"
        (((List.range 2).map envAllGood.recog).filter
          (fun r => !(startswith r baidu_err_head))) :=
  C1_result_is_filtered_join envAllGood 2 rfl envAllGood_no_sentinel

/-- C2, counterexample: the claim says a `stop()` issued at any point
before the chunk loop completes yields the stopped sentinel.  In
`envLateStop` the stop arrives at position 2: after the final re-check of
the single chunk (positions 0 and 1) but before the chunk is recognised,
the final progress report is made and the function returns.  The loop
never reads the flag again (cancellation is only checked at chunk
boundaries), so it returns the normal aggregate, not the sentinel. -/
theorem C2_stop_during_last_chunk_unnoticed :
    chunkLoopRun envLateStop 1 = ⟨"好", [(0, 1), (1, 1)], [0]⟩ ∧
    "好" ≠ stopped_sentinel := by decide

/-- C2, amended: a stop request is honoured exactly when it becomes
visible at one of the per-chunk check points (positions `0, …, 2*n - 1`);
when it does, the run returns the sentinel from the first such check
point, having processed exactly the chunks `0, …, s / 2 - 1` and reported
progress for exactly those. -/
theorem C2_stop_noticed_at_checkpoints (e : LoopEnv) (n s : Nat)
    (hs : e.stopTime = some s) (hvis : s < 2 * n)
    (hsent : ∀ i, e.recog i ≠ stopped_sentinel) :
    (chunkLoopRun e n).result = stopped_sentinel ∧
    (chunkLoopRun e n).processed = List.range (s / 2) ∧
    (chunkLoopRun e n).progress =
      (List.range (s / 2)).map (fun j => (j, n)) := by
  have h := chunkLoopAux_stop e s hs hsent n n 0 [] [] []
    (by omega) (by omega)
  rw [chunkLoopRun, h]
  simp [List.range_eq_range']

/-- Witness for C2 on a three-chunk run stopped while chunk 1 is paused:
chunk 0 is processed, the re-check of chunk 1 sees the stop, and the run
returns the sentinel. -/
theorem C2_stop_noticed_at_checkpoints_witness :
    (chunkLoopRun envMidStop 3).result = stopped_sentinel ∧
    (chunkLoopRun envMidStop 3).processed = List.range (3 / 2) ∧
    (chunkLoopRun envMidStop 3).progress =
      (List.range (3 / 2)).map (fun j => (j, 3)) :=
  C2_stop_noticed_at_checkpoints envMidStop 3 3 rfl (by decide)
    envMidStop_no_sentinel

/-- C4: in a run over `n` chunks with no stop request, the progress
callback is invoked exactly `n + 1` times with arguments
`(0, n), (1, n), …, (n, n)`: the first components are `0, …, n` in
strictly increasing order and every invocation satisfies
`current ≤ total`. -/
theorem C4_progress_calls (e : LoopEnv) (n : Nat)
    (hstop : e.stopTime = none)
    (hsent : ∀ i, e.recog i ≠ stopped_sentinel) :
    (chunkLoopRun e n).progress =
      (List.range (n + 1)).map (fun i => (i, n)) ∧
    (chunkLoopRun e n).progress.length = n + 1 ∧
    (chunkLoopRun e n).progress.map Prod.fst = List.range (n + 1) ∧
    ((chunkLoopRun e n).progress.map Prod.fst).Pairwise (· < ·) ∧
    ((chunkLoopRun e n).progress.all fun p => decide (p.1 ≤ p.2)) = true := by
  have h := chunkLoopAux_no_stop e hstop hsent n n 0 [] [] []
  have hp : (chunkLoopRun e n).progress =
      (List.range (n + 1)).map (fun i => (i, n)) := by
    rw [chunkLoopRun, h]
    simp [List.range_succ, List.range_eq_range']
  have hfst : (chunkLoopRun e n).progress.map Prod.fst = List.range (n + 1) := by
    rw [hp, List.map_map]
    simp [Function.comp_def]
  refine ⟨hp, ?_, hfst, ?_, ?_⟩
  · rw [hp]
    simp
  · rw [hfst]
    exact List.pairwise_lt_range (n + 1)
  · rw [hp]
    simp only [List.all_eq_true, List.mem_map, List.mem_range]
    rintro p ⟨i, hi, rfl⟩
    simp only [decide_eq_true_eq]
    omega

/-- Witness for C4 on a concrete two-chunk run. -/
theorem C4_progress_calls_witness :
    (chunkLoopRun envAllGood 2).progress =
      (List.range 3).map (fun i => (i, 2)) ∧
    (chunkLoopRun envAllGood 2).progress.length = 3 ∧
    (chunkLoopRun envAllGood 2).progress.map Prod.fst = List.range 3 ∧
    ((chunkLoopRun envAllGood 2).progress.map Prod.fst).Pairwise (· < ·) ∧
    ((chunkLoopRun envAllGood 2).progress.all
      fun p => decide (p.1 ≤ p.2)) = true :=
  C4_progress_calls envAllGood 2 rfl envAllGood_no_sentinel

end Mp3ToText

namespace Mp3ToText

/-- C7: under any environment — hence under any interleaving of `pause()`
and `resume()`, which affect neither the stop checks nor the results — the
chunk indices submitted to recognition form an initial prefix
`0, …, k - 1` of the `n` chunks, each occurring exactly once and in
increasing order; and when no stop is requested (and no chunk returns the
sentinel) that prefix is all of `0, …, n - 1`. -/
theorem C7_chunks_once_in_order (e : LoopEnv) (n : Nat) :
    (chunkLoopRun e n).processed =
      List.range (chunkLoopRun e n).processed.length ∧
    (chunkLoopRun e n).processed.length ≤ n ∧
    ((e.stopTime = none ∧ ∀ i, e.recog i ≠ stopped_sentinel) →
      (chunkLoopRun e n).processed = List.range n) := by
  obtain ⟨m, hm, hp⟩ := chunkLoopAux_processed_block e n n 0 [] [] []
  have hp' : (chunkLoopRun e n).processed = List.range m := by
    rw [chunkLoopRun, hp]
    simp [List.range_eq_range']
  refine ⟨?_, ?_, ?_⟩
  · rw [hp']
    simp
  · rw [hp']
    simpa using hm
  · rintro ⟨hstop, hsent⟩
    have h := chunkLoopAux_no_stop e hstop hsent n n 0 [] [] []
    rw [chunkLoopRun, h]
    simp [List.range_eq_range']

/-- Witness for C7 on a concrete stop-free two-chunk run. -/
theorem C7_chunks_once_in_order_witness :
    (chunkLoopRun envAllGood 2).processed =
      List.range (chunkLoopRun envAllGood 2).processed.length ∧
    (chunkLoopRun envAllGood 2).processed.length ≤ 2 ∧
    (chunkLoopRun envAllGood 2).processed = List.range 2 :=
  ⟨(C7_chunks_once_in_order envAllGood 2).1,
   (C7_chunks_once_in_order envAllGood 2).2.1,
   (C7_chunks_once_in_order envAllGood 2).2.2 ⟨rfl, envAllGood_no_sentinel⟩⟩

/-- The slice `audio[i*chunk_length_ms:(i+1)*chunk_length_ms]` is the
window `[i * chunk_length_ms, (i+1) * chunk_length_ms)` of the audio. -/
theorem audioChunk_window {α : Type} (audio : List α) (i : Nat) :
    audioChunk audio i =
      (audio.take ((i + 1) * chunk_length_ms)).drop (i * chunk_length_ms) := by
  rw [List.drop_take, Nat.succ_mul, Nat.add_sub_cancel_left]
  rfl

/-- Frame `j` of chunk `i` is frame `i * chunk_length_ms + j` of the
audio, for every in-window offset `j`. -/
theorem audioChunk_getElem {α : Type} (audio : List α) (i j : Nat)
    (hj : j < chunk_length_ms) :
    (audioChunk audio i)[j]? = audio[i * chunk_length_ms + j]? := by
  rw [audioChunk, List.getElem?_take, if_pos hj, List.getElem?_drop]

/-- C5: with the API keys configured, `transcribe_audio_baidu` routes to
the chunked large-file path exactly when the file size strictly exceeds
`10 * 1024 * 1024` bytes and to the single recognition request exactly
when it does not; in the chunked path the audio is cut into
`len / 60000 + 1` slices, slice `i` being the window
`[i * 60000, (i+1) * 60000)` of the audio (frame `j` of chunk `i` is
frame `i * 60000 + j` of the audio), and a stop-free run submits the
chunks exactly in increasing index order `0, …, chunks_number - 1`. -/
theorem C5_dispatch_and_chunk_layout (appId apiKey secretKey : String)
    (ha : appId ≠ "") (hk : apiKey ≠ "") (hsec : secretKey ≠ "")
    (sz : Nat) (audio : List Int) (i j : Nat) (hj : j < chunk_length_ms)
    (e : LoopEnv) (hstop : e.stopTime = none)
    (hsent : ∀ i2, e.recog i2 ≠ stopped_sentinel) :
    (baiduDispatch appId apiKey secretKey sz = BaiduPath.chunked ↔
      10 * 1024 * 1024 < sz) ∧
    (baiduDispatch appId apiKey secretKey sz = BaiduPath.singleRequest ↔
      sz ≤ 10 * 1024 * 1024) ∧
    chunksNumber audio.length = audio.length / 60000 + 1 ∧
    audioChunk audio i =
      (audio.take ((i + 1) * chunk_length_ms)).drop (i * chunk_length_ms) ∧
    (audioChunk audio i)[j]? = audio[i * chunk_length_ms + j]? ∧
    (chunkLoopRun e (chunksNumber audio.length)).processed =
      List.range (chunksNumber audio.length) := by
  have hkeys : ¬(appId = "" ∨ apiKey = "" ∨ secretKey = "") := by
    simp [ha, hk, hsec]
  refine ⟨?_, ?_, rfl, audioChunk_window audio i, audioChunk_getElem audio i j hj, ?_⟩
  · rw [baiduDispatch, if_neg hkeys]
    by_cases hsz : 10 * 1024 * 1024 < sz
    · simp [hsz]
    · simp [hsz]
  · rw [baiduDispatch, if_neg hkeys]
    by_cases hsz : 10 * 1024 * 1024 < sz
    · simp [hsz]
    · simp [hsz]
      omega
  · have h := chunkLoopAux_no_stop e hstop hsent (chunksNumber audio.length)
      (chunksNumber audio.length) 0 [] [] []
    rw [chunkLoopRun, h]
    simp [List.range_eq_range']

/-- Witness for C5 at a 10 MiB + 1 byte file, a one-frame audio and a
stop-free run. -/
theorem C5_dispatch_and_chunk_layout_witness :
    (baiduDispatch "a" "k" "s" 10485761 = BaiduPath.chunked ↔
      10 * 1024 * 1024 < 10485761) ∧
    (baiduDispatch "a" "k" "s" 10485761 = BaiduPath.singleRequest ↔
      10485761 ≤ 10 * 1024 * 1024) ∧
    chunksNumber ([5] : List Int).length = ([5] : List Int).length / 60000 + 1 ∧
    audioChunk ([5] : List Int) 0 =
      (([5] : List Int).take ((0 + 1) * chunk_length_ms)).drop
        (0 * chunk_length_ms) ∧
    (audioChunk ([5] : List Int) 0)[0]? =
      ([5] : List Int)[0 * chunk_length_ms + 0]? ∧
    (chunkLoopRun envAllGood (chunksNumber ([5] : List Int).length)).processed =
      List.range (chunksNumber ([5] : List Int).length) :=
  C5_dispatch_and_chunk_layout "a" "k" "s" (by decide) (by decide) (by decide)
    10485761 [5] 0 0 (by decide) envAllGood rfl envAllGood_no_sentinel

/-- C10: the slices `audio[i*60000:(i+1)*60000]` for
`i = 0, …, chunks_number - 1`, concatenated in order, reproduce the audio
exactly — no overlap, no gap; and when the duration is an exact multiple
of `60000` ms the formula `len(audio) // 60000 + 1` yields one extra
chunk whose slice is empty, and a stop-free run still submits that final
empty chunk (its index appears among the processed indices). -/
theorem C10_partition_and_empty_tail (audio audio2 : List Int)
    (hdvd : audio2.length % chunk_length_ms = 0)
    (e : LoopEnv) (hstop : e.stopTime = none)
    (hsent : ∀ i, e.recog i ≠ stopped_sentinel) :
    ((List.range (chunksNumber audio.length)).map (audioChunk audio)).flatten
      = audio ∧
    chunksNumber audio2.length = audio2.length / chunk_length_ms + 1 ∧
    audioChunk audio2 (audio2.length / chunk_length_ms) = [] ∧
    (audio2.length / chunk_length_ms) ∈
      (chunkLoopRun e (chunksNumber audio2.length)).processed := by
  refine ⟨?_, rfl, ?_, ?_⟩
  · rw [flatten_audioChunks]
    apply List.take_of_length_le
    simp only [chunksNumber, chunk_length_ms]
    omega
  · have hlen : audio2.length ≤ audio2.length / chunk_length_ms * chunk_length_ms := by
      simp only [chunk_length_ms] at hdvd ⊢
      omega
    rw [audioChunk, List.drop_eq_nil_of_le hlen, List.take_nil]
  · have h := chunkLoopAux_no_stop e hstop hsent (chunksNumber audio2.length)
      (chunksNumber audio2.length) 0 [] [] []
    rw [chunkLoopRun, h]
    simp only [List.nil_append, ← List.range_eq_range', List.mem_range,
      chunksNumber]
    omega

/-- Witness for C10 at a two-frame audio (partition) and the empty audio
(exact-multiple duration with its empty extra chunk). -/
theorem C10_partition_and_empty_tail_witness :
    ((List.range (chunksNumber ([7, 8] : List Int).length)).map
        (audioChunk ([7, 8] : List Int))).flatten = ([7, 8] : List Int) ∧
    chunksNumber ([] : List Int).length =
      ([] : List Int).length / chunk_length_ms + 1 ∧
    audioChunk ([] : List Int) (([] : List Int).length / chunk_length_ms) = [] ∧
    (([] : List Int).length / chunk_length_ms) ∈
      (chunkLoopRun envAllGood (chunksNumber ([] : List Int).length)).processed :=
  C10_partition_and_empty_tail [7, 8] [] (by decide) envAllGood rfl
    envAllGood_no_sentinel

end Mp3ToText
